import Mathlib

/-!
Verification of the multi-tenant material-inventory service
(`src/controllers/material.controller.js`, `src/routes.js`,
`src/middleware/tenant-auth.js`).

The controllers are shallowly embedded as pure functions over an explicit
database state `DB` holding the `Material` and `Transaction` rows of the
Prisma schema. Quantities and stock levels are `DOUBLE PRECISION` columns
manipulated only by `+`/`-`/comparisons in the source; they are modelled
as exact rationals (`ℚ`). Row ids are generated by the store; they are
modelled as a `nextId : Nat` counter, so a freshly created row's id never
collides with an existing one, matching the primary-key guarantee.
Every controller returns its HTTP response as an `Except ApiError _`
together with the (possibly updated) database, so "no mutation on error"
is an explicit part of each function's result.
-/

namespace Inventory

/-- The `TenantPlan` enum of the Prisma schema. -/
inductive TenantPlan where
  | FREE
  | PRO
deriving DecidableEq

/-- The `UserRole` enum of the Prisma schema. -/
inductive UserRole where
  | ADMIN
  | USER
deriving DecidableEq

/-- The `TransactionType` enum of the Prisma schema. -/
inductive TransactionType where
  | IN
  | OUT
deriving DecidableEq

/-- A `Material` row: id, tenantId, name, unit, currentStock, deletedAt.
`createdAt`/`updatedAt` timestamps play no role in the verified logic and
are omitted; `deletedAt` is `none` when the row is live. -/
structure Material where
  id : Nat
  tenantId : Nat
  name : String
  unit : String
  currentStock : ℚ
  deletedAt : Option Nat
deriving DecidableEq

/-- A `Transaction` row: id, tenantId, materialId, type, quantity,
preTransactionStock (`createdAt` omitted; list order is creation order). -/
structure Transaction where
  id : Nat
  tenantId : Nat
  materialId : Nat
  type : TransactionType
  quantity : ℚ
  preTransactionStock : ℚ
deriving DecidableEq

/-- The database state: the two mutable tables, plus the id generator.
Rows appear in creation order. -/
structure DB where
  materials : List Material
  transactions : List Transaction
  nextId : Nat
deriving DecidableEq

/-- The empty database. -/
def DB.init : DB := ⟨[], [], 0⟩

/-- Error taxonomy of the controllers' non-2xx responses.
`insufficientStock` carries the data interpolated into the 400 message:
current stock, the material's unit, and the requested quantity. -/
inductive ApiError where
  | validationError
  | notFound
  | authorizationError
  | planLimitExceeded
  | conflict
  | insufficientStock (available : ℚ) (unit : String) (requested : ℚ)
deriving DecidableEq

/-- Embedding of `prisma.material.findFirst({ where: { id, tenantId, deletedAt: null } })`:
the lookup shared by `createTransaction`, `softDeleteMaterial` and
`getMaterialById`. -/
def findActiveMaterial (s : DB) (tenantId materialId : Nat) : Option Material :=
  s.materials.find? fun m =>
    m.id == materialId && m.tenantId == tenantId && m.deletedAt == none

/-- Embedding of `prisma.material.count({ where: { tenantId, deletedAt: null } })`:
the FREE-plan limit counts only non-soft-deleted materials. -/
def countActiveMaterials (s : DB) (tenantId : Nat) : Nat :=
  (s.materials.filter fun m => m.tenantId == tenantId && m.deletedAt == none).length

/-- The fixed FREE-plan ceiling (`MAX_FREE_MATERIALS` in `createMaterial`). -/
def MAX_FREE_MATERIALS : Nat := 5

/-- Embedding of `createMaterialSchema`: zod validation `name: string 1..100, unit: string 1..20`. -/
def validMaterialInput (name unit : String) : Bool :=
  1 ≤ name.length && name.length ≤ 100 && 1 ≤ unit.length && unit.length ≤ 20

/-- Embedding of `POST /materials` (`createMaterial`): validate, enforce the FREE-plan
ceiling, then insert a row with `currentStock: 0`. The unique index
`(tenantId, name)` covers soft-deleted rows too, so the create throws
`P2002` (409 Conflict) whenever any row of the tenant bears the name. -/
def createMaterial (s : DB) (tenantId : Nat) (plan : TenantPlan)
    (name unit : String) : Except ApiError Material × DB :=
  if ¬ validMaterialInput name unit then
    (.error .validationError, s)
  else if plan = TenantPlan.FREE ∧ MAX_FREE_MATERIALS ≤ countActiveMaterials s tenantId then
    (.error .planLimitExceeded, s)
  else if s.materials.any fun m => m.tenantId == tenantId && m.name == name then
    (.error .conflict, s)
  else
    let m : Material := ⟨s.nextId, tenantId, name, unit, 0, none⟩
    (.ok m, { s with materials := s.materials ++ [m], nextId := s.nextId + 1 })

/-- Successful response of `POST /materials/:id/transactions`: the 201 body
`{ material: { id, currentStock }, transaction }`. -/
structure TxnResponse where
  materialId : Nat
  currentStock : ℚ
  txn : Transaction
deriving DecidableEq

/-- Embedding of `POST /materials/:id/transactions` (`createTransaction`): validate
(`quantity` positive per `createTransactionSchema`), look the material up
scoped to the tenant and to live rows, reject an OUT movement when
`preTransactionStock < quantity`, then atomically (`prisma.$transaction`)
set `currentStock` to the new stock and append the transaction row. -/
def createTransaction (s : DB) (tenantId materialId : Nat)
    (type : TransactionType) (quantity : ℚ) : Except ApiError TxnResponse × DB :=
  if ¬ 0 < quantity then
    (.error .validationError, s)
  else
    match findActiveMaterial s tenantId materialId with
    | none => (.error .notFound, s)
    | some material =>
      let preTransactionStock := material.currentStock
      match type with
      | .OUT =>
        if preTransactionStock < quantity then
          (.error (.insufficientStock preTransactionStock material.unit quantity), s)
        else
          commitMovement s tenantId materialId .OUT quantity preTransactionStock
            (preTransactionStock - quantity)
      | .IN =>
        commitMovement s tenantId materialId .IN quantity preTransactionStock
          (preTransactionStock + quantity)
where
  /-- The `prisma.$transaction([...])` block: update the material's stock
  (by id, as in the source) and insert the transaction row, as one unit. -/
  commitMovement (s : DB) (tenantId materialId : Nat) (type : TransactionType)
      (quantity preTransactionStock newStock : ℚ) : Except ApiError TxnResponse × DB :=
    let txn : Transaction := ⟨s.nextId, tenantId, materialId, type, quantity, preTransactionStock⟩
    (.ok ⟨materialId, newStock, txn⟩,
      { s with
          materials := s.materials.map fun m =>
            if m.id == materialId then { m with currentStock := newStock } else m,
          transactions := s.transactions ++ [txn],
          nextId := s.nextId + 1 })

/-- Embedding of `DELETE /materials/:id` (`softDeleteMaterial`): look the material up
scoped to the tenant and to live rows (so an already-deleted material is
a 404), then set `deletedAt` on that row. -/
def softDeleteMaterial (s : DB) (tenantId materialId : Nat) (now : Nat) :
    Except ApiError Material × DB :=
  match findActiveMaterial s tenantId materialId with
  | none => (.error .notFound, s)
  | some material =>
    (.ok { material with deletedAt := some now },
      { s with
          materials := s.materials.map fun m =>
            if m.id == materialId then { m with deletedAt := some now } else m })

/-- Embedding of `GET /materials/:id` (`getMaterialById`): tenant-scoped, live-row-scoped
lookup, returning the material with its 10 most recent transactions
(creation order descending). -/
def getMaterialById (s : DB) (tenantId materialId : Nat) :
    Except ApiError (Material × List Transaction) × DB :=
  match findActiveMaterial s tenantId materialId with
  | none => (.error .notFound, s)
  | some material =>
    (.ok (material, ((s.transactions.filter fun t => t.materialId == materialId).reverse.take 10)), s)

/-- Embedding of `roleCheckMiddleware(requiredRole)` of `middleware/tenant-auth.js`:
returns `true` when the request may proceed. The only enforced case is
`requiredRole == ADMIN && userRole !== ADMIN`. -/
def roleCheckMiddleware (requiredRole userRole : UserRole) : Bool :=
  ¬ (requiredRole = UserRole.ADMIN ∧ userRole ≠ UserRole.ADMIN)

/-- The `POST /materials` route: `roleCheckMiddleware('ADMIN')` then the
controller. -/
def handleCreateMaterial (role : UserRole) (s : DB) (tenantId : Nat)
    (plan : TenantPlan) (name unit : String) : Except ApiError Material × DB :=
  if roleCheckMiddleware UserRole.ADMIN role then
    createMaterial s tenantId plan name unit
  else
    (.error .authorizationError, s)

/-- The `DELETE /materials/:id` route: `roleCheckMiddleware('ADMIN')` then
the controller. -/
def handleSoftDeleteMaterial (role : UserRole) (s : DB) (tenantId materialId : Nat)
    (now : Nat) : Except ApiError Material × DB :=
  if roleCheckMiddleware UserRole.ADMIN role then
    softDeleteMaterial s tenantId materialId now
  else
    (.error .authorizationError, s)

/-- The `POST /materials/:id/transactions` route: no role middleware is
installed in `routes.js`, so the controller runs for every authenticated
role. The `role` argument records that the route receives but ignores it. -/
def handleCreateTransaction (_role : UserRole) (s : DB) (tenantId materialId : Nat)
    (type : TransactionType) (quantity : ℚ) : Except ApiError TxnResponse × DB :=
  createTransaction s tenantId materialId type quantity

/-- One state-mutating API call, with the request context (tenant, plan)
it runs under. -/
inductive Op where
  | createMat (tenantId : Nat) (plan : TenantPlan) (name unit : String)
  | createTxn (tenantId materialId : Nat) (type : TransactionType) (quantity : ℚ)
  | softDel (tenantId materialId : Nat) (now : Nat)

/-- Effect of one API call on the database (the response is dropped;
every error path of the controllers returns the state untouched). -/
def applyOp (s : DB) (op : Op) : DB :=
  match op with
  | .createMat tenantId plan name unit => (createMaterial s tenantId plan name unit).2
  | .createTxn tenantId materialId type quantity =>
      (createTransaction s tenantId materialId type quantity).2
  | .softDel tenantId materialId now => (softDeleteMaterial s tenantId materialId now).2

/-- The database produced by a sequence of API calls from the empty store. -/
def run (ops : List Op) : DB := ops.foldl applyOp DB.init

/-- The signed contribution of one transaction to its material's stock:
`+quantity` for IN, `-quantity` for OUT. -/
def signedQty (t : Transaction) : ℚ :=
  match t.type with
  | .IN => t.quantity
  | .OUT => -t.quantity

/-- The net sum of a material's transaction history. -/
def ledgerSum (ts : List Transaction) (materialId : Nat) : ℚ :=
  ((ts.filter fun t => t.materialId == materialId).map signedQty).sum

/-- The stock-ledger invariant (spec I1 and I2): every material's
`currentStock` is the net sum of its transaction history and is
non-negative. -/
def StockInvariant (s : DB) : Prop :=
  ∀ m ∈ s.materials, m.currentStock = ledgerSum s.transactions m.id ∧ 0 ≤ m.currentStock

/-- Well-formedness the store guarantees: row ids are pairwise distinct,
below the id generator, and every transaction references an already
generated material id. -/
def WFIds (s : DB) : Prop :=
  s.materials.Pairwise (fun a b => a.id ≠ b.id) ∧
  (∀ m ∈ s.materials, m.id < s.nextId) ∧
  (∀ t ∈ s.transactions, t.materialId < s.nextId)

/-!
Fine-grained execution model of `createTransaction` for the concurrency
analysis. In the source, the `findFirst` read, the insufficient-stock
check and the computation of `newStock` all happen before the
`prisma.$transaction([...])` call; only the two writes are inside it.
A request is therefore two steps against the shared store: a read phase
producing a pending commit, and a write phase applying it.
-/

/-- Everything a request has computed by the time it calls
`prisma.$transaction`: the new stock (computed in JS from the snapshot
`preTransactionStock` it read), and the transaction row to insert. -/
structure PendingMove where
  tenantId : Nat
  materialId : Nat
  type : TransactionType
  quantity : ℚ
  preTransactionStock : ℚ
  newStock : ℚ
deriving DecidableEq

/-- Read phase of `createTransaction`: validation, the tenant-scoped
`findFirst`, the insufficient-stock check and the `newStock` computation,
all against the state at read time. No write occurs. -/
def movementReadPhase (s : DB) (tenantId materialId : Nat)
    (type : TransactionType) (quantity : ℚ) : Option PendingMove :=
  if ¬ 0 < quantity then none
  else
    match findActiveMaterial s tenantId materialId with
    | none => none
    | some material =>
      let pre := material.currentStock
      match type with
      | .OUT =>
        if pre < quantity then none
        else some ⟨tenantId, materialId, .OUT, quantity, pre, pre - quantity⟩
      | .IN => some ⟨tenantId, materialId, .IN, quantity, pre, pre + quantity⟩

/-- Write phase: the `prisma.$transaction` block, which unconditionally
sets `currentStock` to the precomputed `newStock` and inserts the
transaction row — it does not re-read or re-check the current stock. -/
def movementWritePhase (s : DB) (p : PendingMove) : DB :=
  { s with
      materials := s.materials.map fun m =>
        if m.id == p.materialId then { m with currentStock := p.newStock } else m,
      transactions := s.transactions ++
        [⟨s.nextId, p.tenantId, p.materialId, p.type, p.quantity, p.preTransactionStock⟩],
      nextId := s.nextId + 1 }

/-- Interleaving of two concurrent `createTransaction` requests in which
both read phases complete before either write phase runs (the schedule
read₁, read₂, write₁, write₂). When either read phase fails its request
performs no write, as in the source. -/
def twoConcurrentMovements (s : DB)
    (t₁ m₁ : Nat) (ty₁ : TransactionType) (q₁ : ℚ)
    (t₂ m₂ : Nat) (ty₂ : TransactionType) (q₂ : ℚ) : DB :=
  let p₁ := movementReadPhase s t₁ m₁ ty₁ q₁
  let p₂ := movementReadPhase s t₂ m₂ ty₂ q₂
  let s₁ := match p₁ with | some p => movementWritePhase s p | none => s
  match p₂ with | some p => movementWritePhase s₁ p | none => s₁

/-- The stock written by a movement: `pre + quantity` for IN,
`pre - quantity` for OUT (shorthand used by the theorems below). -/
def newStockOf (type : TransactionType) (pre quantity : ℚ) : ℚ :=
  match type with
  | .IN => pre + quantity
  | .OUT => pre - quantity

/-! ### Basic lemmas about the store primitives -/

theorem findActiveMaterial_eq_some {s : DB} {t mid : Nat} {m : Material}
    (h : findActiveMaterial s t mid = some m) :
    m ∈ s.materials ∧ m.id = mid ∧ m.tenantId = t ∧ m.deletedAt = none := by
  unfold findActiveMaterial at h
  have hmem := List.mem_of_find?_eq_some h
  have hp := List.find?_some h
  simp only [Bool.and_eq_true, beq_iff_eq] at hp
  exact ⟨hmem, hp.1.1, hp.1.2, hp.2⟩

theorem findActiveMaterial_eq_none {s : DB} {t mid : Nat}
    (h : ∀ m ∈ s.materials, ¬(m.id = mid ∧ m.tenantId = t ∧ m.deletedAt = none)) :
    findActiveMaterial s t mid = none := by
  unfold findActiveMaterial
  refine List.find?_eq_none.mpr fun m hm => ?_
  simp only [Bool.and_eq_true, beq_iff_eq, not_and]
  intro h12 h3
  exact h m hm ⟨h12.1, h12.2, h3⟩

theorem ledgerSum_append (ts : List Transaction) (t : Transaction) (mid : Nat) :
    ledgerSum (ts ++ [t]) mid =
      ledgerSum ts mid + (if t.materialId = mid then signedQty t else 0) := by
  unfold ledgerSum
  rw [List.filter_append]
  by_cases h : t.materialId = mid <;>
    simp [List.filter_cons, h]

theorem ledgerSum_eq_zero {ts : List Transaction} {mid : Nat}
    (h : ∀ t ∈ ts, t.materialId ≠ mid) : ledgerSum ts mid = 0 := by
  unfold ledgerSum
  have hnil : ts.filter (fun t => t.materialId == mid) = [] := by
    refine List.filter_eq_nil_iff.mpr fun t ht => ?_
    simp only [beq_iff_eq]
    exact h t ht
  simp [hnil]

theorem eq_of_mem_of_id_eq {l : List Material}
    (hl : l.Pairwise fun a b => a.id ≠ b.id) :
    ∀ {a b : Material}, a ∈ l → b ∈ l → a.id = b.id → a = b := by
  induction l with
  | nil => intro a b ha _ _; simp at ha
  | cons c tl ih =>
    intro a b ha hb hid
    rcases List.pairwise_cons.mp hl with ⟨hc, htl⟩
    rcases List.mem_cons.mp ha with rfl | ha' <;>
      rcases List.mem_cons.mp hb with rfl | hb'
    · rfl
    · exact absurd hid (hc _ hb')
    · exact absurd hid.symm (hc _ ha')
    · exact ih htl ha' hb' hid

/-! ### Preservation of the stock-ledger invariant -/

theorem commitMovement_preserves {s : DB} {t mid : Nat} {ty : TransactionType} {q : ℚ}
    {m : Material} (hfind : findActiveMaterial s t mid = some m)
    (hns : 0 ≤ newStockOf ty m.currentStock q)
    (hwf : WFIds s) (hinv : StockInvariant s) :
    WFIds (createTransaction.commitMovement s t mid ty q m.currentStock
      (newStockOf ty m.currentStock q)).2 ∧
    StockInvariant (createTransaction.commitMovement s t mid ty q m.currentStock
      (newStockOf ty m.currentStock q)).2 := by
  obtain ⟨hm, hid, -, -⟩ := findActiveMaterial_eq_some hfind
  obtain ⟨hpw, hmlt, htlt⟩ := hwf
  simp only [createTransaction.commitMovement]
  have fid : ∀ x : Material,
      (if x.id == mid then { x with currentStock := newStockOf ty m.currentStock q }
        else x).id = x.id := by
    intro x
    by_cases h : x.id = mid <;> simp [h]
  constructor
  · refine ⟨?_, ?_, ?_⟩
    · exact hpw.map _ fun a b hab => by rw [fid, fid]; exact hab
    · intro x' hx'
      obtain ⟨x, hx, rfl⟩ := List.mem_map.mp hx'
      rw [fid]
      exact Nat.lt_succ_of_lt (hmlt x hx)
    · intro tx htx
      rcases List.mem_append.mp htx with h | h
      · exact Nat.lt_succ_of_lt (htlt tx h)
      · simp only [List.mem_singleton] at h
        subst h
        exact Nat.lt_succ_of_lt (hid ▸ hmlt m hm)
  · intro m' hm'
    simp only [List.mem_map] at hm'
    obtain ⟨x, hx, rfl⟩ := hm'
    by_cases hxid : x.id = mid
    · have hxm : x = m := eq_of_mem_of_id_eq hpw hx hm (hxid.trans hid.symm)
      subst hxm
      have hbase : ledgerSum s.transactions mid = x.currentStock := by
        rw [← hxid]; exact ((hinv x hx).1).symm
      refine ⟨?_, ?_⟩
      · simp only [hxid, beq_self_eq_true, if_true, ledgerSum_append, hbase]
        cases ty <;> simp [newStockOf, signedQty, sub_eq_add_neg]
      · simpa [hxid] using hns
    · have hinvx := hinv x hx
      simp only [beq_iff_eq, hxid, if_false, ledgerSum_append]
      rw [if_neg fun h => hxid h.symm]
      exact ⟨by simpa using hinvx.1, hinvx.2⟩

theorem createTransaction_snd_preserves (s : DB) (t mid : Nat)
    (ty : TransactionType) (q : ℚ) (hwf : WFIds s) (hinv : StockInvariant s) :
    WFIds (createTransaction s t mid ty q).2 ∧
    StockInvariant (createTransaction s t mid ty q).2 := by
  by_cases hq : 0 < q
  · cases hfind : findActiveMaterial s t mid with
    | none => simp [createTransaction, hq, hfind]; exact ⟨hwf, hinv⟩
    | some m =>
      cases ty with
      | IN =>
        have hns : 0 ≤ newStockOf .IN m.currentStock q :=
          le_of_lt (by simpa [newStockOf] using
            add_pos_of_nonneg_of_pos (hinv m (findActiveMaterial_eq_some hfind).1).2 hq)
        have h := commitMovement_preserves hfind hns ⟨hwf.1, hwf.2.1, hwf.2.2⟩ hinv
        simpa [createTransaction, hq, hfind, newStockOf] using h
      | OUT =>
        by_cases hlt : m.currentStock < q
        · simp [createTransaction, hq, hfind, hlt]; exact ⟨hwf, hinv⟩
        · have hns : 0 ≤ newStockOf .OUT m.currentStock q := by
            simpa [newStockOf] using sub_nonneg.mpr (not_lt.mp hlt)
          have h := commitMovement_preserves hfind hns ⟨hwf.1, hwf.2.1, hwf.2.2⟩ hinv
          simpa [createTransaction, hq, hfind, hlt, newStockOf] using h
  · simp [createTransaction, hq]; exact ⟨hwf, hinv⟩

theorem createMaterial_snd_preserves (s : DB) (t : Nat) (plan : TenantPlan)
    (name unit : String) (hwf : WFIds s) (hinv : StockInvariant s) :
    WFIds (createMaterial s t plan name unit).2 ∧
    StockInvariant (createMaterial s t plan name unit).2 := by
  obtain ⟨hpw, hmlt, htlt⟩ := hwf
  unfold createMaterial
  split
  · exact ⟨⟨hpw, hmlt, htlt⟩, hinv⟩
  · split
    · exact ⟨⟨hpw, hmlt, htlt⟩, hinv⟩
    · split
      · exact ⟨⟨hpw, hmlt, htlt⟩, hinv⟩
      · constructor
        · refine ⟨?_, ?_, ?_⟩
          · rw [List.pairwise_append]
            refine ⟨hpw, List.pairwise_singleton _ _, ?_⟩
            intro a ha b hb
            simp only [List.mem_singleton] at hb
            subst hb
            exact Nat.ne_of_lt (hmlt a ha)
          · intro x hx
            rcases List.mem_append.mp hx with h | h
            · exact Nat.lt_succ_of_lt (hmlt x h)
            · simp only [List.mem_singleton] at h
              subst h
              exact Nat.lt_succ_self _
          · intro tx htx
            exact Nat.lt_succ_of_lt (htlt tx htx)
        · intro m' hm'
          rcases List.mem_append.mp hm' with h | h
          · exact hinv m' h
          · simp only [List.mem_singleton] at h
            subst h
            refine ⟨?_, le_refl 0⟩
            exact (ledgerSum_eq_zero fun tx htx => Nat.ne_of_lt (htlt tx htx)).symm

theorem softDeleteMaterial_snd_preserves (s : DB) (t mid now : Nat)
    (hwf : WFIds s) (hinv : StockInvariant s) :
    WFIds (softDeleteMaterial s t mid now).2 ∧
    StockInvariant (softDeleteMaterial s t mid now).2 := by
  obtain ⟨hpw, hmlt, htlt⟩ := hwf
  unfold softDeleteMaterial
  cases hfind : findActiveMaterial s t mid with
  | none => exact ⟨⟨hpw, hmlt, htlt⟩, hinv⟩
  | some m =>
    have gid : ∀ x : Material,
        (if x.id == mid then { x with deletedAt := some now } else x).id = x.id := by
      intro x
      by_cases h : x.id = mid <;> simp [h]
    constructor
    · refine ⟨?_, ?_, htlt⟩
      · exact hpw.map _ fun a b hab => by rw [gid, gid]; exact hab
      · intro x' hx'
        obtain ⟨x, hx, rfl⟩ := List.mem_map.mp hx'
        rw [gid]
        exact hmlt x hx
    · intro m' hm'
      simp only [List.mem_map] at hm'
      obtain ⟨x, hx, rfl⟩ := hm'
      have hinvx := hinv x hx
      by_cases h : x.id = mid
      · simp only [h, beq_self_eq_true, if_true]
        exact ⟨h ▸ hinvx.1, hinvx.2⟩
      · simp only [beq_iff_eq, h, if_false]
        exact hinvx

theorem applyOp_preserves (s : DB) (op : Op)
    (h : WFIds s ∧ StockInvariant s) :
    WFIds (applyOp s op) ∧ StockInvariant (applyOp s op) := by
  cases op with
  | createMat t plan name unit => exact createMaterial_snd_preserves s t plan name unit h.1 h.2
  | createTxn t mid ty q => exact createTransaction_snd_preserves s t mid ty q h.1 h.2
  | softDel t mid now => exact softDeleteMaterial_snd_preserves s t mid now h.1 h.2

theorem foldl_applyOp_preserves (ops : List Op) :
    ∀ s : DB, WFIds s ∧ StockInvariant s →
      WFIds (ops.foldl applyOp s) ∧ StockInvariant (ops.foldl applyOp s) := by
  induction ops with
  | nil => intro s h; exact h
  | cons op tl ih =>
    intro s h
    exact ih _ (applyOp_preserves s op h)

theorem run_preserves (ops : List Op) :
    WFIds (run ops) ∧ StockInvariant (run ops) := by
  have hinit : WFIds DB.init ∧ StockInvariant DB.init := by
    refine ⟨⟨?_, ?_, ?_⟩, ?_⟩ <;> simp [DB.init, StockInvariant]
  exact foldl_applyOp_preserves ops DB.init hinit

/-- Shared characterization of the success path of `createTransaction`:
under the preconditions, the call returns the updated material and the
created transaction and commits both writes in one step. -/
theorem createTransaction_ok_eq (s : DB) (t mid : Nat)
    (ty : TransactionType) (q : ℚ) (m : Material)
    (hfind : findActiveMaterial s t mid = some m) (hq : 0 < q)
    (hout : ty = .OUT → q ≤ m.currentStock) :
    createTransaction s t mid ty q =
      (.ok ⟨mid, newStockOf ty m.currentStock q,
          ⟨s.nextId, t, mid, ty, q, m.currentStock⟩⟩,
        { s with
            materials := s.materials.map fun x =>
              if x.id == mid then { x with currentStock := newStockOf ty m.currentStock q }
              else x,
            transactions := s.transactions ++
              [⟨s.nextId, t, mid, ty, q, m.currentStock⟩],
            nextId := s.nextId + 1 }) := by
  cases ty with
  | IN =>
    simp [createTransaction, hq, hfind, createTransaction.commitMovement, newStockOf]
  | OUT =>
    have hnlt : ¬ m.currentStock < q := not_lt.mpr (hout rfl)
    simp [createTransaction, hq, hfind, hnlt, createTransaction.commitMovement, newStockOf]

/-! ### Claim theorems -/

/-- C1: In every state reachable by any sequence of `createMaterial`,
`createTransaction` and `softDeleteMaterial` calls from the empty store,
every material's `currentStock` equals the net sum of signed quantities
(`+quantity` for IN, `-quantity` for OUT) over that material's transaction
history, and `currentStock` is never negative. -/
theorem stock_matches_ledger_and_nonneg (ops : List Op) :
    ∀ m ∈ (run ops).materials,
      m.currentStock = ledgerSum (run ops).transactions m.id ∧ 0 ≤ m.currentStock :=
  (run_preserves ops).2

theorem stock_matches_ledger_and_nonneg_witness :
    (⟨0, 7, "steel", "kg", 3, none⟩ : Material) ∈
        (run [.createMat 7 .FREE "steel" "kg", .createTxn 7 0 .IN 5,
          .createTxn 7 0 .OUT 2]).materials ∧
      ((⟨0, 7, "steel", "kg", 3, none⟩ : Material).currentStock =
          ledgerSum (run [.createMat 7 .FREE "steel" "kg", .createTxn 7 0 .IN 5,
            .createTxn 7 0 .OUT 2]).transactions
            (⟨0, 7, "steel", "kg", 3, none⟩ : Material).id ∧
        0 ≤ (⟨0, 7, "steel", "kg", 3, none⟩ : Material).currentStock) := by
  have hmem : (⟨0, 7, "steel", "kg", 3, none⟩ : Material) ∈
      (run [.createMat 7 .FREE "steel" "kg", .createTxn 7 0 .IN 5,
        .createTxn 7 0 .OUT 2]).materials := by
    simp +decide [run, applyOp, createMaterial, createTransaction,
      createTransaction.commitMovement, findActiveMaterial, validMaterialInput,
      countActiveMaterials, MAX_FREE_MATERIALS, DB.init, List.find?, List.filter]
    norm_num
  exact ⟨hmem, stock_matches_ledger_and_nonneg _ _ hmem⟩

/-- C2: For every movement request whose target material exists, belongs
to the tenant and is live, with positive quantity and (for OUT) enough
stock, `createTransaction` sets the stock to `pre + quantity` (IN) or
`pre - quantity` (OUT), appends exactly one transaction record
`{type, quantity, preTransactionStock: pre}` in the same step as the
stock write, and returns the updated material (id and new stock) with the
created transaction. -/
theorem createTransaction_success_spec (s : DB) (t mid : Nat)
    (ty : TransactionType) (q : ℚ) (m : Material)
    (hfind : findActiveMaterial s t mid = some m) (hq : 0 < q)
    (hout : ty = .OUT → q ≤ m.currentStock) :
    createTransaction s t mid ty q =
      (.ok ⟨mid, newStockOf ty m.currentStock q,
          ⟨s.nextId, t, mid, ty, q, m.currentStock⟩⟩,
        { s with
            materials := s.materials.map fun x =>
              if x.id == mid then { x with currentStock := newStockOf ty m.currentStock q }
              else x,
            transactions := s.transactions ++
              [⟨s.nextId, t, mid, ty, q, m.currentStock⟩],
            nextId := s.nextId + 1 }) :=
  createTransaction_ok_eq s t mid ty q m hfind hq hout

theorem createTransaction_success_spec_witness :
    findActiveMaterial ⟨[⟨0, 0, "steel", "kg", 100, none⟩], [], 1⟩ 0 0 =
        some ⟨0, 0, "steel", "kg", 100, none⟩ ∧
      createTransaction ⟨[⟨0, 0, "steel", "kg", 100, none⟩], [], 1⟩ 0 0 .OUT 30 =
        (.ok ⟨0, newStockOf .OUT 100 30, ⟨1, 0, 0, .OUT, 30, 100⟩⟩,
          ⟨[⟨0, 0, "steel", "kg", newStockOf .OUT 100 30, none⟩],
            [⟨1, 0, 0, .OUT, 30, 100⟩], 2⟩) := by
  have hfind : findActiveMaterial ⟨[⟨0, 0, "steel", "kg", 100, none⟩], [], 1⟩ 0 0 =
      some ⟨0, 0, "steel", "kg", 100, none⟩ := rfl
  refine ⟨hfind, ?_⟩
  have h := createTransaction_success_spec ⟨[⟨0, 0, "steel", "kg", 100, none⟩], [], 1⟩
    0 0 .OUT 30 ⟨0, 0, "steel", "kg", 100, none⟩ hfind (by norm_num)
    (fun _ => by norm_num)
  simpa using h

/-- C3: An OUT movement whose quantity exceeds the stock read before the
movement fails with an insufficient-stock error carrying that stock, the
material's unit and the requested quantity, and returns the database
unchanged. -/
theorem createTransaction_insufficient_stock (s : DB) (t mid : Nat) (q : ℚ)
    (m : Material) (hfind : findActiveMaterial s t mid = some m)
    (hq : 0 < q) (hlt : m.currentStock < q) :
    createTransaction s t mid .OUT q =
      (.error (.insufficientStock m.currentStock m.unit q), s) := by
  simp [createTransaction, hq, hfind, hlt]

theorem createTransaction_insufficient_stock_witness :
    findActiveMaterial ⟨[⟨0, 0, "steel", "kg", 70, none⟩], [], 1⟩ 0 0 =
        some ⟨0, 0, "steel", "kg", 70, none⟩ ∧
      createTransaction ⟨[⟨0, 0, "steel", "kg", 70, none⟩], [], 1⟩ 0 0 .OUT 1000 =
        (.error (.insufficientStock 70 "kg" 1000),
          ⟨[⟨0, 0, "steel", "kg", 70, none⟩], [], 1⟩) := by
  have hfind : findActiveMaterial ⟨[⟨0, 0, "steel", "kg", 70, none⟩], [], 1⟩ 0 0 =
      some ⟨0, 0, "steel", "kg", 70, none⟩ := rfl
  exact ⟨hfind, createTransaction_insufficient_stock _ _ _ _ _ hfind
    (by norm_num) (by norm_num)⟩

/-- C9: An OUT movement whose quantity exactly equals the current stock
succeeds (the check is strict less-than), drives `currentStock` to
exactly 0, and records a transaction whose `preTransactionStock` is the
old stock. -/
theorem out_movement_exact_stock (s : DB) (t mid : Nat) (q : ℚ) (m : Material)
    (hfind : findActiveMaterial s t mid = some m) (hq : 0 < q)
    (heq : q = m.currentStock) :
    createTransaction s t mid .OUT q =
      (.ok ⟨mid, 0, ⟨s.nextId, t, mid, .OUT, q, m.currentStock⟩⟩,
        { s with
            materials := s.materials.map fun x =>
              if x.id == mid then { x with currentStock := 0 } else x,
            transactions := s.transactions ++
              [⟨s.nextId, t, mid, .OUT, q, m.currentStock⟩],
            nextId := s.nextId + 1 }) := by
  have h := createTransaction_ok_eq s t mid .OUT q m hfind hq (fun _ => heq.le)
  rw [h]
  subst heq
  simp [newStockOf]

theorem out_movement_exact_stock_witness :
    findActiveMaterial ⟨[⟨0, 0, "steel", "kg", 70, none⟩], [], 1⟩ 0 0 =
        some ⟨0, 0, "steel", "kg", 70, none⟩ ∧
      createTransaction ⟨[⟨0, 0, "steel", "kg", 70, none⟩], [], 1⟩ 0 0 .OUT 70 =
        (.ok ⟨0, 0, ⟨1, 0, 0, .OUT, 70, 70⟩⟩,
          ⟨[⟨0, 0, "steel", "kg", 0, none⟩], [⟨1, 0, 0, .OUT, 70, 70⟩], 2⟩) := by
  have hfind : findActiveMaterial ⟨[⟨0, 0, "steel", "kg", 70, none⟩], [], 1⟩ 0 0 =
      some ⟨0, 0, "steel", "kg", 70, none⟩ := rfl
  refine ⟨hfind, ?_⟩
  have h := out_movement_exact_stock ⟨[⟨0, 0, "steel", "kg", 70, none⟩], [], 1⟩
    0 0 70 ⟨0, 0, "steel", "kg", 70, none⟩ hfind (by norm_num) rfl
  simpa using h

/-- C4 (violated by the code): `createTransaction` performs its
`findFirst` read and stock computation outside the atomic write block and
takes no lock, so two concurrent movements on the same material can both
read the same `pre`. Concretely, on a material with stock 100 two
concurrent OUT-30 requests whose reads both precede both writes leave the
final stock at 70 while every serial execution leaves 40, and both
recorded transactions carry `preTransactionStock = 100` — the same stale
`pre`. -/
theorem concurrent_movements_lost_update :
    (twoConcurrentMovements ⟨[⟨0, 0, "steel", "kg", 100, none⟩],
        [⟨1, 0, 0, .IN, 100, 0⟩], 2⟩ 0 0 .OUT 30 0 0 .OUT 30).materials.map
        (fun m => m.currentStock) = [70] ∧
      (twoConcurrentMovements ⟨[⟨0, 0, "steel", "kg", 100, none⟩],
          [⟨1, 0, 0, .IN, 100, 0⟩], 2⟩ 0 0 .OUT 30 0 0 .OUT 30).transactions.map
          (fun t => t.preTransactionStock) = [0, 100, 100] ∧
      ((createTransaction ((createTransaction ⟨[⟨0, 0, "steel", "kg", 100, none⟩],
          [⟨1, 0, 0, .IN, 100, 0⟩], 2⟩ 0 0 .OUT 30).2) 0 0 .OUT 30).2).materials.map
          (fun m => m.currentStock) = [40] ∧
      (70 : ℚ) ≠ 40 := by
  refine ⟨?_, ?_, ?_, by norm_num⟩
  · simp [twoConcurrentMovements, movementReadPhase, movementWritePhase,
      findActiveMaterial, List.find?]
    norm_num
  · simp [twoConcurrentMovements, movementReadPhase, movementWritePhase,
      findActiveMaterial, List.find?]
    norm_num
  · simp [createTransaction, createTransaction.commitMovement, findActiveMaterial,
      List.find?]
    norm_num

/-- C5: Whenever no live material of the tenant has the requested id —
because the material is absent, belongs to another tenant, or is
soft-deleted — `createTransaction`, `getMaterialById` and
`softDeleteMaterial` all fail with the same not-found error and leave the
database unchanged, so the three causes are indistinguishable to the
caller. -/
theorem missing_material_uniform_notFound (s : DB) (t mid now : Nat)
    (ty : TransactionType) (q : ℚ) (hq : 0 < q)
    (habsent : ∀ m ∈ s.materials, ¬(m.id = mid ∧ m.tenantId = t ∧ m.deletedAt = none)) :
    createTransaction s t mid ty q = (.error .notFound, s) ∧
      getMaterialById s t mid = (.error .notFound, s) ∧
      softDeleteMaterial s t mid now = (.error .notFound, s) := by
  have hfind := findActiveMaterial_eq_none habsent
  exact ⟨by simp [createTransaction, hq, hfind],
    by simp [getMaterialById, hfind],
    by simp [softDeleteMaterial, hfind]⟩

theorem missing_material_uniform_notFound_witness :
    (0 : ℚ) < 5 ∧
      (∀ m ∈ (⟨[⟨0, 5, "x", "kg", 4, some 3⟩], [], 1⟩ : DB).materials,
        ¬(m.id = 0 ∧ m.tenantId = 5 ∧ m.deletedAt = none)) ∧
      (createTransaction ⟨[⟨0, 5, "x", "kg", 4, some 3⟩], [], 1⟩ 5 0 .IN 5 =
          (.error .notFound, ⟨[⟨0, 5, "x", "kg", 4, some 3⟩], [], 1⟩) ∧
        getMaterialById ⟨[⟨0, 5, "x", "kg", 4, some 3⟩], [], 1⟩ 5 0 =
          (.error .notFound, ⟨[⟨0, 5, "x", "kg", 4, some 3⟩], [], 1⟩) ∧
        softDeleteMaterial ⟨[⟨0, 5, "x", "kg", 4, some 3⟩], [], 1⟩ 5 0 9 =
          (.error .notFound, ⟨[⟨0, 5, "x", "kg", 4, some 3⟩], [], 1⟩)) := by
  have hq : (0 : ℚ) < 5 := by norm_num
  have habsent : ∀ m ∈ (⟨[⟨0, 5, "x", "kg", 4, some 3⟩], [], 1⟩ : DB).materials,
      ¬(m.id = 0 ∧ m.tenantId = 5 ∧ m.deletedAt = none) := by
    intro m hm
    simp only [List.mem_singleton] at hm
    subst hm
    simp
  exact ⟨hq, habsent, missing_material_uniform_notFound _ _ _ _ _ _ hq habsent⟩

/-- C6 counterexample: a FREE tenant holding one live material named `x`
has fewer than five live materials, yet creating another material named
`x` does not succeed — it fails with a uniqueness conflict — so the claim
as stated (below the ceiling, creation succeeds) is false. -/
theorem createMaterial_below_limit_conflict :
    countActiveMaterials ⟨[⟨0, 1, "x", "kg", 0, none⟩], [], 1⟩ 1 < 5 ∧
      createMaterial ⟨[⟨0, 1, "x", "kg", 0, none⟩], [], 1⟩ 1 .FREE "x" "kg" =
        (.error .conflict, ⟨[⟨0, 1, "x", "kg", 0, none⟩], [], 1⟩) := by
  exact ⟨by decide, rfl⟩

/-- C6 (amended): for well-formed input, a FREE tenant with at least five
live materials is denied with the plan-limit error and no material is
created; with fewer than five live materials the creation succeeds
provided no material of the tenant (live or soft-deleted) already bears
the name; and a PRO tenant never receives the plan-limit error. -/
theorem free_plan_limit_spec (s : DB) (t : Nat) (name unit : String)
    (hvalid : validMaterialInput name unit = true) :
    (5 ≤ countActiveMaterials s t →
        createMaterial s t .FREE name unit = (.error .planLimitExceeded, s)) ∧
      (countActiveMaterials s t < 5 →
        (∀ m ∈ s.materials, ¬(m.tenantId = t ∧ m.name = name)) →
        createMaterial s t .FREE name unit =
          (.ok ⟨s.nextId, t, name, unit, 0, none⟩,
            { s with
                materials := s.materials ++ [⟨s.nextId, t, name, unit, 0, none⟩],
                nextId := s.nextId + 1 })) ∧
      ∀ plan, plan = TenantPlan.PRO →
        (createMaterial s t plan name unit).1 ≠ .error .planLimitExceeded := by
  refine ⟨?_, ?_, ?_⟩
  · intro h5
    simp [createMaterial, hvalid, MAX_FREE_MATERIALS, h5]
  · intro h5 hname
    have hany : (s.materials.any fun m => m.tenantId == t && m.name == name) = false := by
      rw [List.any_eq_false]
      intro m hm
      simp only [Bool.and_eq_true, beq_iff_eq, not_and]
      intro h1 h2
      exact hname m hm ⟨h1, h2⟩
    simp [createMaterial, hvalid, MAX_FREE_MATERIALS, Nat.not_le.mpr h5, hany]
  · intro plan hplan
    subst hplan
    by_cases hany : (s.materials.any fun m => m.tenantId == t && m.name == name) = true <;>
      simp [createMaterial, hvalid, hany]

theorem free_plan_limit_spec_witness :
    validMaterialInput "y" "kg" = true ∧
      (countActiveMaterials ⟨[⟨0, 1, "x", "kg", 0, none⟩], [], 1⟩ 1 < 5 →
        (∀ m ∈ (⟨[⟨0, 1, "x", "kg", 0, none⟩], [], 1⟩ : DB).materials,
          ¬(m.tenantId = 1 ∧ m.name = "y")) →
        createMaterial ⟨[⟨0, 1, "x", "kg", 0, none⟩], [], 1⟩ 1 .FREE "y" "kg" =
          (.ok ⟨1, 1, "y", "kg", 0, none⟩,
            ⟨[⟨0, 1, "x", "kg", 0, none⟩, ⟨1, 1, "y", "kg", 0, none⟩], [], 2⟩)) ∧
      createMaterial ⟨[⟨0, 1, "x", "kg", 0, none⟩], [], 1⟩ 1 .FREE "y" "kg" =
        (.ok ⟨1, 1, "y", "kg", 0, none⟩,
          ⟨[⟨0, 1, "x", "kg", 0, none⟩, ⟨1, 1, "y", "kg", 0, none⟩], [], 2⟩) := by
  have hvalid : validMaterialInput "y" "kg" = true := by decide
  have h := (free_plan_limit_spec ⟨[⟨0, 1, "x", "kg", 0, none⟩], [], 1⟩ 1 "y" "kg"
    hvalid).2.1
  refine ⟨hvalid, fun h5 hn => ?_, ?_⟩
  · simpa using h h5 hn
  · have h5 : countActiveMaterials ⟨[⟨0, 1, "x", "kg", 0, none⟩], [], 1⟩ 1 < 5 := by decide
    have hn : ∀ m ∈ (⟨[⟨0, 1, "x", "kg", 0, none⟩], [], 1⟩ : DB).materials,
        ¬(m.tenantId = 1 ∧ m.name = "y") := by decide
    simpa using h h5 hn

/-- C7: every request by a non-ADMIN user to create or soft-delete a
material is denied by the route's role middleware with an authorization
error and no state change, while the create-transaction route has no role
middleware, so its outcome is the same for every authenticated role. -/
theorem role_gate_spec (role : UserRole) (s : DB) (t mid now : Nat)
    (plan : TenantPlan) (name unit : String) (ty : TransactionType) (q : ℚ)
    (hrole : role ≠ UserRole.ADMIN) :
    handleCreateMaterial role s t plan name unit = (.error .authorizationError, s) ∧
      handleSoftDeleteMaterial role s t mid now = (.error .authorizationError, s) ∧
      ∀ r₁ r₂ : UserRole, handleCreateTransaction r₁ s t mid ty q =
        handleCreateTransaction r₂ s t mid ty q := by
  have h : roleCheckMiddleware UserRole.ADMIN role = false := by
    cases role with
    | ADMIN => exact absurd rfl hrole
    | USER => rfl
  exact ⟨by simp [handleCreateMaterial, h],
    by simp [handleSoftDeleteMaterial, h],
    fun r₁ r₂ => rfl⟩

theorem role_gate_spec_witness :
    (UserRole.USER ≠ UserRole.ADMIN) ∧
      (handleCreateMaterial .USER ⟨[], [], 0⟩ 1 .FREE "x" "kg" =
          (.error .authorizationError, ⟨[], [], 0⟩) ∧
        handleSoftDeleteMaterial .USER ⟨[], [], 0⟩ 1 0 9 =
          (.error .authorizationError, ⟨[], [], 0⟩) ∧
        ∀ r₁ r₂ : UserRole, handleCreateTransaction r₁ ⟨[], [], 0⟩ 1 0 .IN 5 =
          handleCreateTransaction r₂ ⟨[], [], 0⟩ 1 0 .IN 5) := by
  have hrole : UserRole.USER ≠ UserRole.ADMIN := by decide
  exact ⟨hrole, role_gate_spec .USER ⟨[], [], 0⟩ 1 0 9 .FREE "x" "kg" .IN 5 hrole⟩

/-- C8: soft-deleting an existing live material of the tenant changes
only that material's `deletedAt` field — every material's id, name, unit
and `currentStock`, and the whole transaction log, are unchanged — and a
second soft-delete of the same material fails with the not-found error
instead of silently succeeding. -/
theorem softDelete_frame_spec (s : DB) (t mid now : Nat) (m : Material)
    (hfind : findActiveMaterial s t mid = some m) :
    softDeleteMaterial s t mid now =
      (.ok { m with deletedAt := some now },
        { s with materials := s.materials.map fun x =>
            if x.id == mid then { x with deletedAt := some now } else x }) ∧
      (softDeleteMaterial s t mid now).2.transactions = s.transactions ∧
      (softDeleteMaterial s t mid now).2.materials.map
          (fun x => (x.id, x.name, x.unit, x.currentStock)) =
        s.materials.map (fun x => (x.id, x.name, x.unit, x.currentStock)) ∧
      ∀ now₂, softDeleteMaterial (softDeleteMaterial s t mid now).2 t mid now₂ =
        (.error .notFound, (softDeleteMaterial s t mid now).2) := by
  have h1 : softDeleteMaterial s t mid now =
      (.ok { m with deletedAt := some now },
        { s with materials := s.materials.map fun x =>
            if x.id == mid then { x with deletedAt := some now } else x }) := by
    simp [softDeleteMaterial, hfind]
  refine ⟨h1, by rw [h1], ?_, ?_⟩
  · rw [h1, List.map_map]
    refine List.map_congr_left fun x _ => ?_
    by_cases h : x.id = mid <;> simp [h]
  · intro now₂
    set s₂ := (softDeleteMaterial s t mid now).2 with hs₂
    have hnone : findActiveMaterial s₂ t mid = none := by
      apply findActiveMaterial_eq_none
      intro x' hx'
      rw [hs₂, h1] at hx'
      simp only [List.mem_map] at hx'
      obtain ⟨x, hx, rfl⟩ := hx'
      by_cases h : x.id = mid <;> simp [h]
    simp [softDeleteMaterial, hnone]

theorem softDelete_frame_spec_witness :
    findActiveMaterial ⟨[⟨0, 0, "steel", "kg", 70, none⟩],
        [⟨1, 0, 0, .IN, 70, 0⟩], 2⟩ 0 0 = some ⟨0, 0, "steel", "kg", 70, none⟩ ∧
      (softDeleteMaterial ⟨[⟨0, 0, "steel", "kg", 70, none⟩],
          [⟨1, 0, 0, .IN, 70, 0⟩], 2⟩ 0 0 9).2.transactions =
        [⟨1, 0, 0, .IN, 70, 0⟩] ∧
      ∀ now₂, softDeleteMaterial (softDeleteMaterial ⟨[⟨0, 0, "steel", "kg", 70, none⟩],
          [⟨1, 0, 0, .IN, 70, 0⟩], 2⟩ 0 0 9).2 0 0 now₂ =
        (.error .notFound, (softDeleteMaterial ⟨[⟨0, 0, "steel", "kg", 70, none⟩],
          [⟨1, 0, 0, .IN, 70, 0⟩], 2⟩ 0 0 9).2) := by
  have hfind : findActiveMaterial ⟨[⟨0, 0, "steel", "kg", 70, none⟩],
      [⟨1, 0, 0, .IN, 70, 0⟩], 2⟩ 0 0 = some ⟨0, 0, "steel", "kg", 70, none⟩ := rfl
  have h := softDelete_frame_spec ⟨[⟨0, 0, "steel", "kg", 70, none⟩],
    [⟨1, 0, 0, .IN, 70, 0⟩], 2⟩ 0 0 9 ⟨0, 0, "steel", "kg", 70, none⟩ hfind
  exact ⟨hfind, h.2.1, h.2.2.2⟩

/-- C10: every successfully created material starts with `currentStock`
zero and an empty transaction history (no transaction references its
fresh id), so it already satisfies the stock-equals-ledger-sum
invariant. -/
theorem createMaterial_initial_stock_zero (s : DB) (t : Nat) (plan : TenantPlan)
    (name unit : String) (m : Material) (s' : DB)
    (htx : ∀ tx ∈ s.transactions, tx.materialId < s.nextId)
    (hok : createMaterial s t plan name unit = (.ok m, s')) :
    m.currentStock = 0 ∧
      s'.transactions.filter (fun tx => tx.materialId == m.id) = [] ∧
      m.currentStock = ledgerSum s'.transactions m.id := by
  unfold createMaterial at hok
  split at hok
  · simp at hok
  · split at hok
    · simp at hok
    · split at hok
      · simp at hok
      · simp only [Prod.mk.injEq, Except.ok.injEq] at hok
        obtain ⟨rfl, rfl⟩ := hok
        have hfil : s.transactions.filter
            (fun tx => tx.materialId == s.nextId) = [] := by
          refine List.filter_eq_nil_iff.mpr fun tx htxm => ?_
          simp only [beq_iff_eq]
          exact Nat.ne_of_lt (htx tx htxm)
        exact ⟨rfl, hfil,
          (ledgerSum_eq_zero fun tx htxm => Nat.ne_of_lt (htx tx htxm)).symm⟩

theorem createMaterial_initial_stock_zero_witness :
    (∀ tx ∈ (DB.init).transactions, tx.materialId < (DB.init).nextId) ∧
      createMaterial DB.init 1 .FREE "x" "kg" =
        (.ok ⟨0, 1, "x", "kg", 0, none⟩, ⟨[⟨0, 1, "x", "kg", 0, none⟩], [], 1⟩) ∧
      ((⟨0, 1, "x", "kg", 0, none⟩ : Material).currentStock = 0 ∧
        (⟨[⟨0, 1, "x", "kg", 0, none⟩], [], 1⟩ : DB).transactions.filter
          (fun tx => tx.materialId == (⟨0, 1, "x", "kg", 0, none⟩ : Material).id) = [] ∧
        (⟨0, 1, "x", "kg", 0, none⟩ : Material).currentStock =
          ledgerSum (⟨[⟨0, 1, "x", "kg", 0, none⟩], [], 1⟩ : DB).transactions
            (⟨0, 1, "x", "kg", 0, none⟩ : Material).id) := by
  have htx : ∀ tx ∈ (DB.init).transactions, tx.materialId < (DB.init).nextId := by
    intro tx htxm
    simp [DB.init] at htxm
  have hok : createMaterial DB.init 1 .FREE "x" "kg" =
      (.ok ⟨0, 1, "x", "kg", 0, none⟩, ⟨[⟨0, 1, "x", "kg", 0, none⟩], [], 1⟩) := rfl
  exact ⟨htx, hok, createMaterial_initial_stock_zero DB.init 1 .FREE "x" "kg"
    ⟨0, 1, "x", "kg", 0, none⟩ ⟨[⟨0, 1, "x", "kg", 0, none⟩], [], 1⟩ htx hok⟩

end Inventory
